import Mathlib

/-!
# go-mcp-py-eval-wasi: the evaluation pipeline and its error taxonomy

A shallow embedding of

* `pyeval.go`            : `PyEvalResult`, `ErrorDto`, `PyEvalResultDto`,
                           `PyEvalResultDtoFromJson`, `PyEvalResultDto.ToResult`;
* `eval/wasi/wa0/pyeval.go` : the sentinel errors, `WasmRuntime.Instantiate`,
                           `WasmInstance.Close`, `WasmRuntime.ToEvaluator`;
* `cmd/mcp-py-eval/main.go` : `wasmPagesInMiB`, `toClientError`, the page ceiling
                           computed in `main`, the `select` of `pyEvalTool`.

Go strings and byte slices are lists of bytes.  Go `error` values are trees: a
node is a sentinel of this repository, an error made outside it (the engine, the
context package), or a `fmt.Errorf` wrapper holding its formatted text and its
operands.  The parts of the Go standard library the code calls (`errors.Is`,
`errors.As`, `strings.Contains`, `bytes.TrimSpace`, `json.Valid`,
`json.Unmarshal`) are embedded as far as the code depends on them.
-/

namespace PyEval

/-! ## Byte strings -/

/-- A Go `string` or `[]byte`: a sequence of bytes. -/
abbrev Bytes := List UInt8

/-- The bytes of an ASCII literal. -/
def str (s : String) : Bytes := s.toList.map (fun c => UInt8.ofNat c.toNat)

/-- Go `strings.Contains(s, sub)`: `sub` occurs in `s` as a contiguous run. -/
def stringsContains : Bytes → Bytes → Bool
  | [], sub => sub.isEmpty
  | c :: rest, sub => sub.isPrefixOf (c :: rest) || stringsContains rest sub

/-- The verb `%d` of `fmt` on an unsigned integer: its decimal digits. -/
def decimal (n : Nat) : Bytes := (Nat.toDigits 10 n).map (fun c => UInt8.ofNat c.toNat)

/-! ## Go errors -/

/-- Exit code wazero uses for a module closed by context cancellation
(`sys.ExitCodeContextCanceled`). -/
def ExitCodeContextCanceled : Nat := 0xffffffff

/-- Exit code wazero uses for a module closed by deadline expiry
(`sys.ExitCodeDeadlineExceeded`). -/
def ExitCodeDeadlineExceeded : Nat := 0xefffffff

/-- An error value made outside this repository: by the engine, the identifier
generator, the JSON encoder or the context package.  Such a value never holds
one of this repository's sentinels, which are package-level variables of
`wa0pyeval` and `pyeval`. -/
inductive ExtError where
  /-- The value `context.DeadlineExceeded`. -/
  | deadlineExceeded
  /-- A `*sys.ExitError` with the given `uint32` exit code. -/
  | exitError (code : Nat)
  /-- Any other error without `Unwrap`, `Is` or `As`; `msg` is its `Error()`. -/
  | leaf (msg : Bytes)
  /-- An error with `Unwrap() error`; `msg` is its `Error()`. -/
  | wrap (msg : Bytes) (inner : ExtError)
  /-- An error with `Unwrap() []error` of two operands; `msg` is its `Error()`. -/
  | join (msg : Bytes) (a b : ExtError)

/-- The sentinel errors declared with `errors.New` in this repository. -/
inductive Sentinel where
  | ErrRuntime
  | ErrInstantiate
  | ErrUuid
  | ErrInput
  | ErrOutputJson
  | ErrPythonExecution
  deriving DecidableEq

/-- The text each sentinel was created with. -/
def Sentinel.Error : Sentinel → Bytes
  | .ErrRuntime => str "runtime error"
  | .ErrInstantiate => str "internal error: invalid evaluation engine"
  | .ErrUuid => str "internal error: unable to configure engine"
  | .ErrInput => str "input error: invalid json"
  | .ErrOutputJson => str "output error: invalid json"
  | .ErrPythonExecution => str "python execution error"

/-- A Go `error` value as this program builds and inspects it. -/
inductive GoError where
  /-- One of the repository's sentinels (compared by identity). -/
  | sentinel (s : Sentinel)
  /-- An error made outside the repository. -/
  | ext (e : ExtError)
  /-- A `*fmt.wrapError`: `fmt.Errorf` with one `%w`; `msg` is the formatted text. -/
  | wrapError (msg : Bytes) (err : GoError)
  /-- A `*fmt.wrapErrors`: `fmt.Errorf` with two `%w`; `msg` is the formatted text. -/
  | wrapErrors (msg : Bytes) (e1 e2 : GoError)

/-- The targets the program passes to `errors.Is`. -/
inductive Target where
  | sentinel (s : Sentinel)
  | deadlineExceeded
  deriving DecidableEq

/-- The method `Error()` of an external error.  For `*sys.ExitError` the text is
the one wazero formats from the exit code. -/
def ExtError.Error : ExtError → Bytes
  | .deadlineExceeded => str "context deadline exceeded"
  | .exitError code =>
    if code = ExitCodeContextCanceled then str "module closed with context canceled"
    else if code = ExitCodeDeadlineExceeded then
      str "module closed with context deadline exceeded"
    else str "module closed with exit_code(" ++ decimal code ++ str ")"
  | .leaf msg => msg
  | .wrap msg _ => msg
  | .join msg _ _ => msg

/-- The method `Error()`. -/
def GoError.Error : GoError → Bytes
  | .sentinel s => s.Error
  | .ext e => e.Error
  | .wrapError msg _ => msg
  | .wrapErrors msg _ _ => msg

/-- Go `errors.Is` on an external error: some node of the tree equals the target
or has an `Is` method accepting it.  Only `*sys.ExitError` has such a method: it
accepts `context.DeadlineExceeded` when its code is `ExitCodeDeadlineExceeded`. -/
def ExtError.Is : ExtError → Target → Bool
  | .deadlineExceeded, t => t = Target.deadlineExceeded
  | .exitError code, t => t = Target.deadlineExceeded && code = ExitCodeDeadlineExceeded
  | .leaf _, _ => false
  | .wrap _ inner, t => inner.Is t
  | .join _ a b, t => a.Is t || b.Is t

/-- Go `errors.Is(err, target)`. -/
def errorsIs : GoError → Target → Bool
  | .sentinel s, t => t = Target.sentinel s
  | .ext e, t => e.Is t
  | .wrapError _ err, t => errorsIs err t
  | .wrapErrors _ e1 e2, t => errorsIs e1 t || errorsIs e2 t

/-- Go `errors.As(err, &exitErr)` with `exitErr *sys.ExitError` on an external
error: the exit code of the first `*sys.ExitError` of the tree, depth first. -/
def ExtError.AsExitError : ExtError → Option Nat
  | .deadlineExceeded => none
  | .exitError code => some code
  | .leaf _ => none
  | .wrap _ inner => inner.AsExitError
  | .join _ a b => (a.AsExitError).orElse (fun _ => b.AsExitError)

/-- Go `errors.As(err, &exitErr)` with `exitErr *sys.ExitError`. -/
def errorsAsExitError : GoError → Option Nat
  | .sentinel _ => none
  | .ext e => e.AsExitError
  | .wrapError _ err => errorsAsExitError err
  | .wrapErrors _ e1 e2 => (errorsAsExitError e1).orElse (fun _ => errorsAsExitError e2)

/-- The value `context.DeadlineExceeded` as a Go error. -/
def contextDeadlineExceeded : GoError := .ext .deadlineExceeded

/-! ## JSON values -/

/-- A JSON value as `encoding/json` decodes it.  A number keeps its literal (the
`float64` or `int` it stands for is obtained from it); a string is held
unquoted; an object keeps its members in input order, duplicates included. -/
inductive Json where
  | null
  | bool (b : Bool)
  | num (lit : Bytes)
  | str (s : Bytes)
  | arr (items : List Json)
  | obj (members : List (Bytes × Json))

/-- A Go value of type `map[string]any`: the nil map, or a map given by its
entries in insertion order, where a later entry for a key replaces an earlier
one. -/
inductive GoMap where
  | nilMap
  | mk (entries : List (Bytes × Json))

/-! ## pyeval.go -/

/-- The struct `PyEvalResult`.  `Result` has type `any`: it is the nil interface
(`none`) or holds a `map[string]any`, which is all the program ever stores. -/
structure PyEvalResult where
  Result : Option GoMap
  Error : Option GoError

/-- The struct `ErrorDto`. -/
structure ErrorDto where
  Code : Int
  Message : Bytes

/-- The struct `PyEvalResultDto`; `Error` is a pointer, `none` when nil. -/
structure PyEvalResultDto where
  Result : GoMap
  Error : Option ErrorDto

/-- The method `PyEvalResultDto.ToResult`: the error is
`fmt.Errorf("%w: %s", ErrRuntime, d.Error.Message)` when `d.Error` is not nil;
`Result` is `d.Result` stored in the interface. -/
def PyEvalResultDto.ToResult (d : PyEvalResultDto) : PyEvalResult :=
  let err : Option GoError :=
    match d.Error with
    | some e =>
      some (.wrapError (Sentinel.ErrRuntime.Error ++ str ": " ++ e.Message)
        (.sentinel .ErrRuntime))
    | none => none
  { Result := some d.Result, Error := err }

/-! ## encoding/json: the scanner behind `json.Valid` and `json.Unmarshal`

`json.Valid(data)` is `checkValid(data, scan) == nil`, and `json.Unmarshal`
starts with the same `checkValid`.  The scanner is a state machine fed one byte
at a time: `step` is the current state function, `parseState` the stack of open
arrays and objects. -/

/-- The byte of an ASCII character. -/
def ch (c : Char) : UInt8 := UInt8.ofNat c.toNat

/-- What the scanner reports for one byte (the `scan...` constants). -/
inductive ScanOp where
  | scanContinue
  | scanBeginLiteral
  | scanBeginObject
  | scanObjectKey
  | scanObjectValue
  | scanEndObject
  | scanBeginArray
  | scanArrayValue
  | scanEndArray
  | scanSkipSpace
  | scanEnd
  | scanError
  deriving DecidableEq

/-- What an open array or object is waiting for (the `parse...` constants). -/
inductive ParseState where
  | parseObjectKey
  | parseObjectValue
  | parseArrayValue
  deriving DecidableEq

/-- The state functions of the scanner. -/
inductive StepFn where
  | stateBeginValueOrEmpty
  | stateBeginValue
  | stateBeginStringOrEmpty
  | stateBeginString
  | stateEndValue
  | stateEndTop
  | stateInString
  | stateInStringEsc
  | stateInStringEscU
  | stateInStringEscU1
  | stateInStringEscU12
  | stateInStringEscU123
  | stateNeg
  | state1
  | state0
  | stateDot
  | stateDot0
  | stateE
  | stateESign
  | stateE0
  | stateT
  | stateTr
  | stateTru
  | stateF
  | stateFa
  | stateFal
  | stateFals
  | stateN
  | stateNu
  | stateNul
  | stateError
  deriving DecidableEq

/-- The struct `scanner`; `parseState` has its innermost entry first, `err` says
whether `s.err` is set. -/
structure Scanner where
  step : StepFn
  endTop : Bool
  parseState : List ParseState
  err : Bool

def maxNestingDepth : Nat := 10000

/-- The method `scanner.reset`. -/
def Scanner.reset : Scanner :=
  { step := .stateBeginValue, endTop := false, parseState := [], err := false }

/-- The method `scanner.error`: records the error and parks the scanner. -/
def Scanner.error (s : Scanner) : Scanner × ScanOp :=
  ({ s with step := .stateError, err := true }, .scanError)

/-- The method `scanner.pushParseState`, with the next state already chosen. -/
def Scanner.pushParseState (s : Scanner) (next : StepFn) (newParseState : ParseState)
    (successState : ScanOp) : Scanner × ScanOp :=
  let s1 := { s with step := next, parseState := newParseState :: s.parseState }
  if s1.parseState.length ≤ maxNestingDepth then (s1, successState) else s1.error

/-- The method `scanner.popParseState`. -/
def Scanner.popParseState (s : Scanner) : Scanner :=
  let rest := s.parseState.tail
  if rest.length = 0 then { s with parseState := rest, step := .stateEndTop, endTop := true }
  else { s with parseState := rest, step := .stateEndValue }

/-- The function `isSpace` of the scanner: JSON insignificant whitespace. -/
def isSpace (c : UInt8) : Bool := c = ch ' ' || c = ch '\t' || c = ch '\r' || c = ch '\n'

def isDigit (c : UInt8) : Bool := ch '0' ≤ c && c ≤ ch '9'

def isHexDigit (c : UInt8) : Bool :=
  isDigit c || (ch 'a' ≤ c && c ≤ ch 'f') || (ch 'A' ≤ c && c ≤ ch 'F')

/-- The state `stateEndTop`: a byte other than space after the top-level value
records an error, reported on the next call; the result is `scanEnd`. -/
def stateEndTop (s : Scanner) (c : UInt8) : Scanner × ScanOp :=
  if !isSpace c then ((s.error).1, .scanEnd) else (s, .scanEnd)

/-- The state `stateEndValue`: after a value, inside an array or object or at
the top level. -/
def stateEndValue (s : Scanner) (c : UInt8) : Scanner × ScanOp :=
  match s.parseState with
  | [] => stateEndTop { s with step := .stateEndTop, endTop := true } c
  | ps :: rest =>
    if isSpace c then ({ s with step := .stateEndValue }, .scanSkipSpace)
    else match ps with
      | .parseObjectKey =>
        if c = ch ':' then
          ({ s with parseState := .parseObjectValue :: rest, step := .stateBeginValue },
            .scanObjectKey)
        else s.error
      | .parseObjectValue =>
        if c = ch ',' then
          ({ s with parseState := .parseObjectKey :: rest, step := .stateBeginString },
            .scanObjectValue)
        else if c = 0x7d then (s.popParseState, .scanEndObject)
        else s.error
      | .parseArrayValue =>
        if c = ch ',' then ({ s with step := .stateBeginValue }, .scanArrayValue)
        else if c = 0x5d then (s.popParseState, .scanEndArray)
        else s.error

/-- The state `stateBeginValue`. -/
def stateBeginValue (s : Scanner) (c : UInt8) : Scanner × ScanOp :=
  if isSpace c then (s, .scanSkipSpace)
  else if c = 0x7b then s.pushParseState .stateBeginStringOrEmpty .parseObjectKey .scanBeginObject
  else if c = 0x5b then s.pushParseState .stateBeginValueOrEmpty .parseArrayValue .scanBeginArray
  else if c = 0x22 then ({ s with step := .stateInString }, .scanBeginLiteral)
  else if c = ch '-' then ({ s with step := .stateNeg }, .scanBeginLiteral)
  else if c = ch '0' then ({ s with step := .state0 }, .scanBeginLiteral)
  else if c = ch 't' then ({ s with step := .stateT }, .scanBeginLiteral)
  else if c = ch 'f' then ({ s with step := .stateF }, .scanBeginLiteral)
  else if c = ch 'n' then ({ s with step := .stateN }, .scanBeginLiteral)
  else if ch '1' ≤ c && c ≤ ch '9' then ({ s with step := .state1 }, .scanBeginLiteral)
  else s.error

/-- The state `stateBeginValueOrEmpty`: after `[`. -/
def stateBeginValueOrEmpty (s : Scanner) (c : UInt8) : Scanner × ScanOp :=
  if isSpace c then (s, .scanSkipSpace)
  else if c = 0x5d then stateEndValue s c
  else stateBeginValue s c

/-- The state `stateBeginString`: after `,` in an object. -/
def stateBeginString (s : Scanner) (c : UInt8) : Scanner × ScanOp :=
  if isSpace c then (s, .scanSkipSpace)
  else if c = 0x22 then ({ s with step := .stateInString }, .scanBeginLiteral)
  else s.error

/-- The state `stateBeginStringOrEmpty`: after the opening brace of an object. -/
def stateBeginStringOrEmpty (s : Scanner) (c : UInt8) : Scanner × ScanOp :=
  if isSpace c then (s, .scanSkipSpace)
  else if c = 0x7d then
    stateEndValue { s with parseState := .parseObjectValue :: s.parseState.tail } c
  else stateBeginString s c

/-- The state `stateInString`. -/
def stateInString (s : Scanner) (c : UInt8) : Scanner × ScanOp :=
  if c = 0x22 then ({ s with step := .stateEndValue }, .scanContinue)
  else if c = 0x5c then ({ s with step := .stateInStringEsc }, .scanContinue)
  else if c < 0x20 then s.error
  else (s, .scanContinue)

/-- The state `stateInStringEsc`: after a backslash in a string. -/
def stateInStringEsc (s : Scanner) (c : UInt8) : Scanner × ScanOp :=
  if c = ch 'b' || c = ch 'f' || c = ch 'n' || c = ch 'r' || c = ch 't' || c = 0x5c
      || c = ch '/' || c = 0x22 then
    ({ s with step := .stateInString }, .scanContinue)
  else if c = ch 'u' then ({ s with step := .stateInStringEscU }, .scanContinue)
  else s.error

/-- The states `stateInStringEscU` to `stateInStringEscU123`: one more
hexadecimal digit, then on to `next`. -/
def stateHex (next : StepFn) (s : Scanner) (c : UInt8) : Scanner × ScanOp :=
  if isHexDigit c then ({ s with step := next }, .scanContinue) else s.error

/-- The states spelling `true`, `false` and `null`: the byte `want`, then on to
`next`. -/
def stateLetter (want : UInt8) (next : StepFn) (s : Scanner) (c : UInt8) :
    Scanner × ScanOp :=
  if c = want then ({ s with step := next }, .scanContinue) else s.error

/-- The state `stateNeg`: after the minus sign of a number. -/
def stateNeg (s : Scanner) (c : UInt8) : Scanner × ScanOp :=
  if c = ch '0' then ({ s with step := .state0 }, .scanContinue)
  else if ch '1' ≤ c && c ≤ ch '9' then ({ s with step := .state1 }, .scanContinue)
  else s.error

/-- The state `state0`: after a leading `0` (or, from `state1`, after the
integer digits). -/
def state0 (s : Scanner) (c : UInt8) : Scanner × ScanOp :=
  if c = ch '.' then ({ s with step := .stateDot }, .scanContinue)
  else if c = ch 'e' || c = ch 'E' then ({ s with step := .stateE }, .scanContinue)
  else stateEndValue s c

/-- The state `state1`: inside the integer digits. -/
def state1 (s : Scanner) (c : UInt8) : Scanner × ScanOp :=
  if isDigit c then ({ s with step := .state1 }, .scanContinue) else state0 s c

/-- The state `stateDot`: after the decimal point. -/
def stateDot (s : Scanner) (c : UInt8) : Scanner × ScanOp :=
  if isDigit c then ({ s with step := .stateDot0 }, .scanContinue) else s.error

/-- The state `stateDot0`: inside the fraction digits. -/
def stateDot0 (s : Scanner) (c : UInt8) : Scanner × ScanOp :=
  if isDigit c then (s, .scanContinue)
  else if c = ch 'e' || c = ch 'E' then ({ s with step := .stateE }, .scanContinue)
  else stateEndValue s c

/-- The state `stateESign`: after the sign of an exponent. -/
def stateESign (s : Scanner) (c : UInt8) : Scanner × ScanOp :=
  if isDigit c then ({ s with step := .stateE0 }, .scanContinue) else s.error

/-- The state `stateE`: after `e` or `E`. -/
def stateE (s : Scanner) (c : UInt8) : Scanner × ScanOp :=
  if c = ch '+' || c = ch '-' then ({ s with step := .stateESign }, .scanContinue)
  else stateESign s c

/-- The state `stateE0`: inside the exponent digits. -/
def stateE0 (s : Scanner) (c : UInt8) : Scanner × ScanOp :=
  if isDigit c then (s, .scanContinue) else stateEndValue s c

/-- The call `s.step(s, c)`: run the current state function on one byte. -/
def Scanner.run (s : Scanner) (c : UInt8) : Scanner × ScanOp :=
  match s.step with
  | .stateBeginValueOrEmpty => stateBeginValueOrEmpty s c
  | .stateBeginValue => stateBeginValue s c
  | .stateBeginStringOrEmpty => stateBeginStringOrEmpty s c
  | .stateBeginString => stateBeginString s c
  | .stateEndValue => stateEndValue s c
  | .stateEndTop => stateEndTop s c
  | .stateInString => stateInString s c
  | .stateInStringEsc => stateInStringEsc s c
  | .stateInStringEscU => stateHex .stateInStringEscU1 s c
  | .stateInStringEscU1 => stateHex .stateInStringEscU12 s c
  | .stateInStringEscU12 => stateHex .stateInStringEscU123 s c
  | .stateInStringEscU123 => stateHex .stateInString s c
  | .stateNeg => stateNeg s c
  | .state1 => state1 s c
  | .state0 => state0 s c
  | .stateDot => stateDot s c
  | .stateDot0 => stateDot0 s c
  | .stateE => stateE s c
  | .stateESign => stateESign s c
  | .stateE0 => stateE0 s c
  | .stateT => stateLetter (ch 'r') .stateTr s c
  | .stateTr => stateLetter (ch 'u') .stateTru s c
  | .stateTru => stateLetter (ch 'e') .stateEndValue s c
  | .stateF => stateLetter (ch 'a') .stateFa s c
  | .stateFa => stateLetter (ch 'l') .stateFal s c
  | .stateFal => stateLetter (ch 's') .stateFals s c
  | .stateFals => stateLetter (ch 'e') .stateEndValue s c
  | .stateN => stateLetter (ch 'u') .stateNu s c
  | .stateNu => stateLetter (ch 'l') .stateNul s c
  | .stateNul => stateLetter (ch 'l') .stateEndValue s c
  | .stateError => (s, .scanError)

/-- The method `scanner.eof`: the input has ended. -/
def Scanner.eof (s : Scanner) : ScanOp :=
  if s.err then .scanError
  else if s.endTop then .scanEnd
  else if ((s.run (ch ' ')).1).endTop then .scanEnd
  else .scanError

/-- The loop of `checkValid`: `none` as soon as a step reports `scanError`. -/
def checkValidLoop : Scanner → Bytes → Option Scanner
  | s, [] => some s
  | s, c :: rest =>
    match s.run c with
    | (_, .scanError) => none
    | (s1, _) => checkValidLoop s1 rest

/-- The function `checkValid`, as the test `checkValid(data, scan) == nil`. -/
def checkValid (data : Bytes) : Bool :=
  match checkValidLoop Scanner.reset data with
  | none => false
  | some s => s.eof ≠ ScanOp.scanError

/-- Go `json.Valid`. -/
def jsonValid (data : Bytes) : Bool := checkValid data

/-! ## encoding/json: reading the value

After `checkValid` the decoder walks the input with the scanner and reads the
value it delimits.  Strings are unquoted as `unquoteBytes` does: escapes are
replaced, and bytes that are not valid UTF-8 become U+FFFD. -/

/-- The bytes of U+FFFD, the replacement rune (`utf8.RuneError`). -/
def runeErrorBytes : Bytes := [0xEF, 0xBF, 0xBD]

/-- Go `utf8.EncodeRune` (as `utf8.AppendRune`): the UTF-8 form of a rune,
U+FFFD for a surrogate or a value above U+10FFFF. -/
def encodeRune (r : Nat) : Bytes :=
  if r < 0x80 then [UInt8.ofNat r]
  else if r < 0x800 then [UInt8.ofNat (0xC0 + r / 64), UInt8.ofNat (0x80 + r % 64)]
  else if (0xD800 ≤ r && r < 0xE000) || 0x10FFFF < r then runeErrorBytes
  else if r < 0x10000 then
    [UInt8.ofNat (0xE0 + r / 4096), UInt8.ofNat (0x80 + r / 64 % 64), UInt8.ofNat (0x80 + r % 64)]
  else
    [UInt8.ofNat (0xF0 + r / 262144), UInt8.ofNat (0x80 + r / 4096 % 64),
      UInt8.ofNat (0x80 + r / 64 % 64), UInt8.ofNat (0x80 + r % 64)]

/-- A continuation byte of UTF-8 (`locb` to `hicb`). -/
def isCont (b : UInt8) : Bool := 0x80 ≤ b && b ≤ 0xBF

/-- The size of the UTF-8 sequence `utf8.DecodeRune` accepts at the head of
`c :: rest` when `c` is not ASCII, or `0` when it reports `RuneError` with
size 1 (the table `first` and the `acceptRanges`). -/
def utf8SeqLen (c : UInt8) (rest : Bytes) : Nat :=
  match rest with
  | [] => 0
  | b1 :: rest1 =>
    if 0xC2 ≤ c && c ≤ 0xDF then (if isCont b1 then 2 else 0)
    else
      let ok1 : Bool :=
        if c = 0xE0 then 0xA0 ≤ b1 && b1 ≤ 0xBF
        else if c = 0xED then 0x80 ≤ b1 && b1 ≤ 0x9F
        else if c = 0xF0 then 0x90 ≤ b1 && b1 ≤ 0xBF
        else if c = 0xF4 then 0x80 ≤ b1 && b1 ≤ 0x8F
        else isCont b1
      if c < 0xE0 || 0xF4 < c || !ok1 then 0
      else match rest1 with
        | [] => 0
        | b2 :: rest2 =>
          if !isCont b2 then 0
          else if c < 0xF0 then 3
          else match rest2 with
            | [] => 0
            | b3 :: _ => if isCont b3 then 4 else 0

/-- The value of a hexadecimal digit, as in `getu4`. -/
def hexVal (c : UInt8) : Nat :=
  if isDigit c then c.toNat - 48
  else if ch 'a' ≤ c && c ≤ ch 'f' then c.toNat - 97 + 10
  else c.toNat - 65 + 10

/-- The rune of the four hexadecimal digits of a `\u` escape. -/
def hex4 (a b c d : UInt8) : Nat := ((hexVal a * 16 + hexVal b) * 16 + hexVal c) * 16 + hexVal d

/-- The byte a one-letter escape stands for. -/
def simpleEscape (e : UInt8) : UInt8 :=
  if e = ch 'b' then 0x08
  else if e = ch 'f' then 0x0C
  else if e = ch 'n' then 0x0A
  else if e = ch 'r' then 0x0D
  else if e = ch 't' then 0x09
  else e

/-- The low surrogate escape `\uXXXX` at the head of the input, if there is one
completing the high surrogate `hi` (`getu4` and `utf16.DecodeRune`): the rune of
the pair. -/
def surrogatePair (hi : Nat) (rest : Bytes) : Option Nat :=
  match rest with
  | b :: u :: h1 :: h2 :: h3 :: h4 :: _ =>
    let lo := hex4 h1 h2 h3 h4
    if b = 0x5c && u = ch 'u' && isHexDigit h1 && isHexDigit h2 && isHexDigit h3
        && isHexDigit h4 && 0xD800 ≤ hi && hi < 0xDC00 && 0xDC00 ≤ lo && lo < 0xE000 then
      some ((hi - 0xD800) * 1024 + (lo - 0xDC00) + 0x10000)
    else none
  | _ => none

/-- The loop of `unquoteBytes` on the bytes between the quotes of a string the
scanner has accepted.  `skip` counts bytes already consumed by the step before
(the rest of an escape or of a UTF-8 sequence). -/
def unquoteLoop : Nat → Bytes → Bytes
  | _, [] => []
  | skip + 1, _ :: rest => unquoteLoop skip rest
  | 0, c :: rest =>
    if c = 0x5c then
      match rest with
      | [] => []
      | e :: rest1 =>
        if e = ch 'u' then
          match rest1 with
          | h1 :: h2 :: h3 :: h4 :: rest2 =>
            let rr := hex4 h1 h2 h3 h4
            if 0xD800 ≤ rr && rr < 0xE000 then
              match surrogatePair rr rest2 with
              | some dec => encodeRune dec ++ unquoteLoop 11 rest
              | none => runeErrorBytes ++ unquoteLoop 5 rest
            else encodeRune rr ++ unquoteLoop 5 rest
          | _ => []
        else simpleEscape e :: unquoteLoop 1 rest
    else if c < 0x80 then c :: unquoteLoop 0 rest
    else
      match utf8SeqLen c rest with
      | 0 => runeErrorBytes ++ unquoteLoop 0 rest
      | n + 1 => (c :: rest.take n) ++ unquoteLoop n rest

/-- The function `unquoteBytes` on a string literal, quotes included. -/
def unquoteBytes (lit : Bytes) : Bytes := unquoteLoop 0 ((lit.drop 1).dropLast)

/-- The value of a literal (string, number, `true`, `false` or `null`), chosen
by its first byte as `literalInterface` does. -/
def literalValue (lit : Bytes) : Json :=
  match lit with
  | [] => .null
  | c :: _ =>
    if c = ch 'n' then .null
    else if c = ch 't' then .bool true
    else if c = ch 'f' then .bool false
    else if c = 0x22 then .str (unquoteBytes lit)
    else .num lit

/-- An array or object the decoder has entered and not yet left; an object
remembers the key whose value is being read. -/
inductive Frame where
  | arr (items : List Json)
  | obj (members : List (Bytes × Json)) (key : Option Bytes)

/-- The state of the decoder: the scanner, the literal being read (last byte
first), the open arrays and objects (innermost first) and the finished
top-level value. -/
structure Decoder where
  scan : Scanner
  lit : Option Bytes
  stack : List Frame
  top : Option Json

/-- A finished value goes into the innermost open array or object, or becomes
the top-level value. -/
def Decoder.attach (d : Decoder) (v : Json) : Decoder :=
  match d.stack with
  | [] => { d with top := some v }
  | .arr items :: rest => { d with stack := .arr (items ++ [v]) :: rest }
  | .obj members none :: rest =>
    match v with
    | .str k => { d with stack := .obj members (some k) :: rest }
    | _ => d
  | .obj members (some k) :: rest => { d with stack := .obj (members ++ [(k, v)]) none :: rest }

/-- The literal being read, if any, is finished. -/
def Decoder.flush (d : Decoder) : Decoder :=
  match d.lit with
  | some l => { d with lit := none }.attach (literalValue l.reverse)
  | none => d

/-- The innermost open array or object is finished. -/
def Decoder.close (d : Decoder) : Decoder :=
  match d.stack with
  | [] => d
  | .arr items :: rest => { d with stack := rest }.attach (.arr items)
  | .obj members _ :: rest => { d with stack := rest }.attach (.obj members)

/-- One byte: the scanner says what it is, the decoder acts on it. -/
def Decoder.step (d : Decoder) (c : UInt8) : Decoder :=
  match d.scan.run c with
  | (s, .scanContinue) => { d with scan := s, lit := d.lit.map (fun l => c :: l) }
  | (s, .scanBeginLiteral) => { d with scan := s, lit := some [c] }
  | (s, .scanBeginObject) => { d with scan := s, stack := .obj [] none :: d.stack }
  | (s, .scanBeginArray) => { d with scan := s, stack := .arr [] :: d.stack }
  | (s, .scanEndObject) => { d.flush with scan := s }.close
  | (s, .scanEndArray) => { d.flush with scan := s }.close
  | (s, _) => { d.flush with scan := s }

/-- The value a valid JSON text denotes, `none` for a text `checkValid`
rejects. -/
def decodeJson (data : Bytes) : Option Json :=
  if checkValid data then
    ((data.foldl Decoder.step
      { scan := Scanner.reset, lit := none, stack := [], top := none }).flush).top
  else none

/-! ## encoding/json: storing the value into a Go destination -/

/-- The errors `json.Unmarshal` returns. -/
inductive JsonError where
  /-- A `*json.SyntaxError`: `checkValid` rejected the input. -/
  | SyntaxError
  /-- A `*json.UnmarshalTypeError`: a value does not fit its destination. -/
  | UnmarshalTypeError

/-- The method `decodeState.saveError`: the first error is the one kept. -/
def saveError (saved : Option JsonError) (e : JsonError) : Option JsonError :=
  match saved with
  | none => some e
  | some first => some first

/-- The number a run of decimal digits denotes. -/
def digitsVal (ds : Bytes) : Nat := ds.foldl (fun acc d => acc * 10 + (d.toNat - 48)) 0

/-- The exponent `strconv` reads from a run of digits: it stops adding digits
once the value has reached 10000. -/
def expVal (ds : Bytes) : Nat :=
  ds.foldl (fun e d => if e < 10000 then e * 10 + (d.toNat - 48) else e) 0

/-- The number literal without its sign. -/
def numBody (lit : Bytes) : Bytes :=
  match lit with
  | c :: rest => if c = ch '-' then rest else lit
  | [] => []

/-- The digits of a number literal before and after the decimal point, and what
follows them (the exponent part, if any). -/
def numDigits (lit : Bytes) : Bytes × Bytes × Bytes :=
  let body := numBody lit
  let int := body.takeWhile isDigit
  match body.dropWhile isDigit with
  | c :: rest =>
    if c = ch '.' then (int, rest.takeWhile isDigit, rest.dropWhile isDigit)
    else (int, [], c :: rest)
  | [] => (int, [], [])

/-- The decimal exponent written in a number literal. -/
def numExp (expPart : Bytes) : Int :=
  match expPart with
  | _ :: c :: rest =>
    if c = ch '-' then -(expVal rest : Int)
    else if c = ch '+' then (expVal rest : Int)
    else (expVal (c :: rest) : Int)
  | _ => 0

/-- The number `2^1024 - 2^970`, halfway between the largest `float64` and
`2^1024`: the least magnitude `strconv.ParseFloat` rounds to infinity. -/
def float64Limit : Nat :=
  179769313486231580793728971405303415079934132710037826936173778980444968292764750946649017977587207096330286416692887910946555547851940402630657488671505820681908902000708383676273854845817711531764475730270069855571366959622842914819860834936475292719074168444365510704342711559699508093042880177904174497792

/-- Whether `strconv.ParseFloat(lit, 64)` reports a range error on a JSON number
literal: the number is at least `2^1024 - 2^970` in magnitude, the least value
that rounds to infinity. -/
def float64Overflow (lit : Bytes) : Bool :=
  let (int, frac, expPart) := numDigits lit
  let mant := digitsVal (int ++ frac)
  let e : Int := numExp expPart - (frac.length : Int)
  let limit : Nat := float64Limit
  if 0 ≤ e then limit ≤ mant * 10 ^ e.toNat else limit * 10 ^ (-e).toNat ≤ mant

/-- Go `strconv.ParseInt(lit, 10, 64)` on a JSON number literal: `none` when
the literal has a fraction or an exponent or does not fit `int64`. -/
def parseInt64 (lit : Bytes) : Option Int :=
  let body := numBody lit
  if body.all isDigit && !body.isEmpty then
    let n : Int := if body.length = lit.length then (digitsVal body : Int)
      else -(digitsVal body : Int)
    if -(2 : Int) ^ 63 ≤ n && n < (2 : Int) ^ 63 then some n else none
  else none

mutual
/-- Whether storing the value into a destination of type `any` records an
error: some number in it does not fit `float64`. -/
def Json.anyError : Json → Bool
  | .null => false
  | .bool _ => false
  | .num lit => float64Overflow lit
  | .str _ => false
  | .arr items => anyErrorList items
  | .obj members => anyErrorMembers members
/-- The same for the elements of an array. -/
def anyErrorList : List Json → Bool
  | [] => false
  | v :: rest => v.anyError || anyErrorList rest
/-- The same for the members of an object. -/
def anyErrorMembers : List (Bytes × Json) → Bool
  | [] => false
  | (_, v) :: rest => v.anyError || anyErrorMembers rest
end

/-- Storing a JSON value into a destination of type `map[string]any` holding
`cur`: `null` stores the nil map; an object adds its members to the map, made
first if nil; anything else is a type error and leaves the map as it is. -/
def storeMap (cur : GoMap) (saved : Option JsonError) (v : Json) : GoMap × Option JsonError :=
  match v with
  | .null => (.nilMap, saved)
  | .obj members =>
    let entries := match cur with
      | .nilMap => members
      | .mk old => old ++ members
    (.mk entries, if anyErrorMembers members then saveError saved .UnmarshalTypeError else saved)
  | _ => (cur, saveError saved .UnmarshalTypeError)

/-- The call `json.Unmarshal(data, &jsonObject)` with `jsonObject` a nil
`map[string]any`: the map afterwards and the error returned. -/
def jsonUnmarshalMap (data : Bytes) : GoMap × Option JsonError :=
  match decodeJson data with
  | none => (.nilMap, some .SyntaxError)
  | some v => storeMap .nilMap none v

/-- The function `foldName` of `encoding/json` as far as a comparison with an
ASCII field name can tell: ASCII letters go to upper case, the two runes outside
ASCII that fold to an ASCII letter (U+017F to `S`, U+212A to `K`) go to that
letter, every other byte outside ASCII stays a byte outside ASCII. -/
def foldName : Nat → Bytes → Bytes
  | _, [] => []
  | skip + 1, _ :: rest => foldName skip rest
  | 0, c :: rest =>
    if c < 0x80 then (if ch 'a' ≤ c && c ≤ ch 'z' then c - 32 else c) :: foldName 0 rest
    else if c = 0xC5 && rest.take 1 = [0xBF] then ch 'S' :: foldName 1 rest
    else if c = 0xE2 && rest.take 2 = [0x84, 0xAA] then ch 'K' :: foldName 2 rest
    else c :: foldName 0 rest

/-- The field a key of a JSON object selects among the struct's field names:
the one it equals, else the one it equals after folding. -/
def lookupField (names : List Bytes) (key : Bytes) : Option Nat :=
  match names.indexOf? key with
  | some i => some i
  | none => (names.map (foldName 0)).indexOf? (foldName 0 key)

/-- Storing one member of a JSON object into an `ErrorDto`: `code` takes an
integer literal, `message` a string; `null` changes nothing; other keys are
skipped. -/
def ErrorDto.storeMember (e : ErrorDto) (saved : Option JsonError) (key : Bytes) (v : Json) :
    ErrorDto × Option JsonError :=
  match lookupField [str "code", str "message"] key with
  | some 0 =>
    match v with
    | .null => (e, saved)
    | .num lit =>
      match parseInt64 lit with
      | some n => ({ e with Code := n }, saved)
      | none => (e, saveError saved .UnmarshalTypeError)
    | _ => (e, saveError saved .UnmarshalTypeError)
  | some _ =>
    match v with
    | .null => (e, saved)
    | .str s => ({ e with Message := s }, saved)
    | _ => (e, saveError saved .UnmarshalTypeError)
  | none => (e, saved)

/-- Storing the members of a JSON object into an `ErrorDto`, in input order. -/
def ErrorDto.storeMembers : List (Bytes × Json) → ErrorDto × Option JsonError →
    ErrorDto × Option JsonError
  | [], acc => acc
  | (k, v) :: rest, (e, saved) => ErrorDto.storeMembers rest (e.storeMember saved k v)

/-- Storing a JSON value into the field `Error *ErrorDto` holding `cur`: `null`
stores nil; any other value first allocates the struct if the pointer is nil,
then an object fills it and anything else is a type error. -/
def storeErrorDto (cur : Option ErrorDto) (saved : Option JsonError) (v : Json) :
    Option ErrorDto × Option JsonError :=
  let e : ErrorDto := cur.getD { Code := 0, Message := [] }
  match v with
  | .null => (none, saved)
  | .obj members =>
    let r := ErrorDto.storeMembers members (e, saved)
    (some r.1, r.2)
  | _ => (some e, saveError saved .UnmarshalTypeError)

/-- Storing one member of a JSON object into a `PyEvalResultDto`: the tags are
`result` and `error`; other keys are skipped. -/
def PyEvalResultDto.storeMember (d : PyEvalResultDto) (saved : Option JsonError) (key : Bytes)
    (v : Json) : PyEvalResultDto × Option JsonError :=
  match lookupField [str "result", str "error"] key with
  | some 0 =>
    let r := storeMap d.Result saved v
    ({ d with Result := r.1 }, r.2)
  | some _ =>
    let r := storeErrorDto d.Error saved v
    ({ d with Error := r.1 }, r.2)
  | none => (d, saved)

/-- Storing the members of a JSON object into a `PyEvalResultDto`, in input
order. -/
def PyEvalResultDto.storeMembers : List (Bytes × Json) → PyEvalResultDto × Option JsonError →
    PyEvalResultDto × Option JsonError
  | [], acc => acc
  | (k, v) :: rest, (d, saved) => PyEvalResultDto.storeMembers rest (d.storeMember saved k v)

/-- The zero value of `PyEvalResultDto`. -/
def PyEvalResultDto.zero : PyEvalResultDto := { Result := .nilMap, Error := none }

/-- The function `PyEvalResultDtoFromJson`: `json.Unmarshal(j, &d)` on the zero
value.  A top-level `null` changes nothing; a top-level value that is neither an
object nor `null` is a type error. -/
def PyEvalResultDtoFromJson (j : Bytes) : PyEvalResultDto × Option JsonError :=
  match decodeJson j with
  | none => (PyEvalResultDto.zero, some .SyntaxError)
  | some (.obj members) => PyEvalResultDto.storeMembers members (PyEvalResultDto.zero, none)
  | some .null => (PyEvalResultDto.zero, none)
  | some _ => (PyEvalResultDto.zero, some .UnmarshalTypeError)

/-! ## bytes.TrimSpace

`bytes.TrimSpace` removes the leading and trailing runes `unicode.IsSpace`
accepts (its loops over ASCII bytes are a fast path of `TrimFunc`).  A rune
is such a space exactly when its UTF-8 form is one of the sequences below. -/

/-- The ASCII bytes of the table `asciiSpace`. -/
def isAsciiSpace (c : UInt8) : Bool :=
  c = ch '\t' || c = ch '\n' || c = 0x0B || c = 0x0C || c = ch '\r' || c = ch ' '

/-- The two-byte spaces: U+0085 and U+00A0. -/
def isSpace2 (c b1 : UInt8) : Bool := c = 0xC2 && (b1 = 0x85 || b1 = 0xA0)

/-- The three-byte spaces: U+1680, U+2000 to U+200A, U+2028, U+2029, U+202F,
U+205F and U+3000. -/
def isSpace3 (c b1 b2 : UInt8) : Bool :=
  (c = 0xE1 && b1 = 0x9A && b2 = 0x80)
  || (c = 0xE2 && b1 = 0x80 && ((0x80 ≤ b2 && b2 ≤ 0x8A) || b2 = 0xA8 || b2 = 0xA9 || b2 = 0xAF))
  || (c = 0xE2 && b1 = 0x81 && b2 = 0x9F)
  || (c = 0xE3 && b1 = 0x80 && b2 = 0x80)

/-- The size of the space rune at the head of the input, `0` if the first rune
is not a space. -/
def leadingSpaceLen (s : Bytes) : Nat :=
  match s with
  | [] => 0
  | c :: rest =>
    if isAsciiSpace c then 1
    else match rest with
      | [] => 0
      | b1 :: rest1 =>
        if isSpace2 c b1 then 2
        else match rest1 with
          | [] => 0
          | b2 :: _ => if isSpace3 c b1 b2 then 3 else 0

/-- The size of the space rune at the end of the input, given last byte first,
`0` if the last rune is not a space. -/
def trailingSpaceLen (rev : Bytes) : Nat :=
  match rev with
  | [] => 0
  | c :: rest =>
    if isAsciiSpace c then 1
    else match rest with
      | [] => 0
      | b1 :: rest1 =>
        if isSpace2 b1 c then 2
        else match rest1 with
          | [] => 0
          | b2 :: _ => if isSpace3 b2 b1 c then 3 else 0

/-- Go `bytes.TrimLeftFunc(s, unicode.IsSpace)`; `skip` counts the bytes of a
space rune still to drop. -/
def trimLeftSpace : Nat → Bytes → Bytes
  | _, [] => []
  | skip + 1, _ :: rest => trimLeftSpace skip rest
  | 0, c :: rest =>
    match leadingSpaceLen (c :: rest) with
    | 0 => c :: rest
    | n + 1 => trimLeftSpace n rest

/-- Go `bytes.TrimRightFunc(s, unicode.IsSpace)` on the reversed input. -/
def trimRightSpaceRev : Nat → Bytes → Bytes
  | _, [] => []
  | skip + 1, _ :: rest => trimRightSpaceRev skip rest
  | 0, c :: rest =>
    match trailingSpaceLen (c :: rest) with
    | 0 => c :: rest
    | n + 1 => trimRightSpaceRev n rest

/-- Go `bytes.TrimSpace`. -/
def bytesTrimSpace (s : Bytes) : Bytes :=
  (trimRightSpaceRev 0 (trimLeftSpace 0 s).reverse).reverse

/-! ## eval/wasi/wa0/pyeval.go -/

/-- What the world outside the evaluator does during one call: the error, if
any, of generating the identifier (`uuid.NewV7` under `WithAutoID`), of
`json.Marshal` under `input.ToJson`, of `Runtime.InstantiateModule` and of
`Module.Close`, and the bytes the guest has written to the `output` buffer when
the evaluator reads it. -/
structure EngineRun where
  autoID : Option ExtError
  toJson : Option ExtError
  instantiate : Option ExtError
  close : Option ExtError
  output : Bytes

/-- The method `WasmRuntime.Instantiate`: the engine's error, if any, wrapped by
`fmt.Errorf("failed to instantiate module: %w", e)`. -/
def WasmRuntime.Instantiate (e : Option ExtError) : Option GoError :=
  match e with
  | some cause => some (.wrapError (str "failed to instantiate module: " ++ cause.Error) (.ext cause))
  | none => none

/-- The method `WasmInstance.Close`: the engine's error, if any, wrapped by
`fmt.Errorf("failed to close module: %w", err)`. -/
def WasmInstance.Close (err : Option ExtError) : Option GoError :=
  match err with
  | some cause => some (.wrapError (str "failed to close module: " ++ cause.Error) (.ext cause))
  | none => none

/-- The function value `WasmRuntime.ToEvaluator` returns, run against one
behaviour of the outside world. -/
def WasmRuntime.ToEvaluator (run : EngineRun) : PyEvalResult :=
  match run.autoID with
  | some _ => { Result := none, Error := some (.sentinel .ErrUuid) }
  | none =>
  match run.toJson with
  | some _ => { Result := none, Error := some (.sentinel .ErrInput) }
  | none =>
  match WasmRuntime.Instantiate run.instantiate with
  | some e =>
    if errorsIs e .deadlineExceeded then { Result := none, Error := some contextDeadlineExceeded }
    else
      { Result := none
        Error := some (.wrapErrors (Sentinel.ErrInstantiate.Error ++ str ": " ++ e.Error)
          (.sentinel .ErrInstantiate) e) }
  | none =>
  match WasmInstance.Close run.close with
  | some closeErr =>
    if errorsIs closeErr .deadlineExceeded then
      { Result := none, Error := some contextDeadlineExceeded }
    else
      match errorsAsExitError closeErr with
      | some exitCode =>
        { Result := none
          Error := some (.wrapError
            (Sentinel.ErrPythonExecution.Error ++ str ": script exited with code "
              ++ decimal exitCode)
            (.sentinel .ErrPythonExecution)) }
      | none =>
        { Result := none
          Error := some (.wrapError (str "error closing wasm module: " ++ closeErr.Error)
            closeErr) }
  | none =>
    let scriptOutput := run.output
    let trimmedOutput := bytesTrimSpace scriptOutput
    if trimmedOutput.length = 0 then
      { Result := none
        Error := some (.wrapError
          (Sentinel.ErrOutputJson.Error
            ++ str ": script produced no output, but a JSON object was expected")
          (.sentinel .ErrOutputJson)) }
    else if !jsonValid trimmedOutput then
      { Result := none
        Error := some (.wrapError
          (Sentinel.ErrOutputJson.Error
            ++ str ": script output was not valid JSON. Raw output: " ++ trimmedOutput)
          (.sentinel .ErrOutputJson)) }
    else
      match jsonUnmarshalMap trimmedOutput with
      | (_, some _) =>
        { Result := none
          Error := some (.wrapError
            (Sentinel.ErrOutputJson.Error
              ++ str ": script output was valid JSON but not an object (map[string]any). Raw output: "
              ++ trimmedOutput)
            (.sentinel .ErrOutputJson)) }
      | (jsonObject, none) => { Result := some jsonObject, Error := none }

/-! ## cmd/mcp-py-eval/main.go: the client message and the tool handler -/

/-- The function `toClientError`; `none` is the nil error. -/
def toClientError (err : Option GoError) : Bytes :=
  match err with
  | none => []
  | some err =>
    if errorsIs err .deadlineExceeded || stringsContains err.Error (str "deadline exceeded") then
      str "Python evaluation timed out"
    else if errorsIs err (.sentinel .ErrUuid) then str "Engine configuration error"
    else if errorsIs err (.sentinel .ErrInput) then str "Invalid code or context input format"
    else if errorsIs err (.sentinel .ErrOutputJson) then err.Error
    else if errorsIs err (.sentinel .ErrPythonExecution) then err.Error
    else if errorsIs err (.sentinel .ErrInstantiate) then str "Engine instantiation failed"
    else str "Internal server error"

/-- What the `select` of `pyEvalTool` sees: the error of the timeout context
once its `Done` channel is closed, and the result sitting in the one-slot
channel once the evaluator has sent it. -/
structure RaceState where
  ctxErr : Option GoError
  resultChan : Option PyEvalResult

/-- The two cases of the `select`. -/
inductive SelectCase where
  | ctxDone
  | resultReady

/-- How a call of `pyEvalTool` ends: with the response it returns, or in the
panic of the type assertion `result.Result.(map[string]any)`. -/
inductive ToolOutcome where
  | response (dto : PyEvalResultDto)
  | panicked

/-- The response of `pyEvalTool` for a failure: an empty map and an `ErrorDto`
with code -1. -/
def failureResponse (clientError : Bytes) : PyEvalResultDto :=
  { Result := .mk [], Error := some { Code := -1, Message := clientError } }

/-- The body of the case `case result := <-resultChan` of `pyEvalTool`. -/
def resultBranch (result : PyEvalResult) : ToolOutcome :=
  match result.Error with
  | some err => .response (failureResponse (toClientError (some err)))
  | none =>
    match result.Result with
    | some m => .response { Result := m, Error := none }
    | none => .panicked

/-- The handler `pyEvalTool` from its `select` on: the case taken decides the
outcome; `none` when that case is not ready, so that the `select` cannot take
it. -/
def pyEvalTool (taken : SelectCase) (s : RaceState) : Option ToolOutcome :=
  match taken with
  | .ctxDone =>
    match s.ctxErr with
    | some err => some (.response (failureResponse (toClientError (some err))))
    | none => none
  | .resultReady =>
    match s.resultChan with
    | some result => some (resultBranch result)
    | none => none

/-! ## cmd/mcp-py-eval/main.go: the page ceiling -/

def wasmPageSizeKiB : Nat := 64

def kiBytesInMiByte : Nat := 1024

def wasmPagesInMiB : Nat := kiBytesInMiByte / wasmPageSizeKiB

/-- The statement `memoryLimitPages := uint32(*mem) * wasmPagesInMiB` of `main`:
`mem` is the value of the flag (a `uint`), converted to `uint32` and multiplied
in `uint32`. -/
def memoryLimitPages (mem : Nat) : Nat := ((mem % 2 ^ 32) * wasmPagesInMiB) % 2 ^ 32

/-! ## Notions the statements use -/

/-- A call in which nothing outside the evaluator fails and the guest has
written `out`: the identifier is generated, the input is encoded, instantiate
and close return nil (exit code 0). -/
def cleanRun (out : Bytes) : EngineRun :=
  { autoID := none, toJson := none, instantiate := none, close := none, output := out }

/-- The map is the nil map, what JSON `null` decodes to; a map made by `make`
or by decoding a JSON object, even an empty one, is not. -/
def GoMap.isNil : GoMap → Bool
  | .nilMap => true
  | .mk _ => false

/-- The success variant is populated: `Result` holds a map that is not nil, a
JSON object.  The nil interface and an interface holding the nil map hold no
object. -/
def PyEvalResult.hasResult (r : PyEvalResult) : Bool :=
  match r.Result with
  | some m => !m.isNil
  | none => false

/-- Exactly one of the two variants of a `PyEvalResult` is populated: an object
in `Result` and a nil `Error`, or no object in `Result` and an `Error` that is
not nil. -/
def PyEvalResult.exactlyOne (r : PyEvalResult) : Bool :=
  (r.hasResult && r.Error.isNone) || (!r.hasResult && r.Error.isSome)

/-- The value is a JSON object. -/
def Json.isObject : Json → Bool
  | .obj _ => true
  | _ => false

/-- The value is the JSON `null`. -/
def Json.isNull : Json → Bool
  | .null => true
  | _ => false

/-- The bytes are a run of whitespace runes and nothing else. -/
inductive SpaceOnly : Bytes → Prop where
  | nil : SpaceOnly []
  | ascii (c : UInt8) (rest : Bytes) : isAsciiSpace c = true → SpaceOnly rest →
      SpaceOnly (c :: rest)
  | two (c b1 : UInt8) (rest : Bytes) : isSpace2 c b1 = true → SpaceOnly rest →
      SpaceOnly (c :: b1 :: rest)
  | three (c b1 b2 : UInt8) (rest : Bytes) : isSpace3 c b1 b2 = true → SpaceOnly rest →
      SpaceOnly (c :: b1 :: b2 :: rest)

/-- The text by which `toClientError` recognises a deadline. -/
def deadlineText : Bytes := str "deadline exceeded"

/-- The three fixed client messages of the configuration, instantiation and
deadline failures. -/
def fixedMessages : List Bytes :=
  [str "Engine configuration error", str "Engine instantiation failed",
    str "Python evaluation timed out"]

/-! ## Theorems -/

set_option maxRecDepth 100000

/-- C5: `ToResult` sets `Error` exactly when `d.Error` is not nil; then the error
wraps `ErrRuntime` and reads "runtime error: " followed by the message, whatever
`d.Result` and the code are; when `d.Error` is nil the result is `d.Result` with
a nil error.  `Result` is `d.Result` in both cases. -/
theorem C5_ToResult_error_iff (d : PyEvalResultDto) :
    (d.ToResult).Error.isSome = d.Error.isSome ∧
    (d.ToResult).Result = some d.Result ∧
    (match d.Error with
      | none => d.ToResult = { Result := some d.Result, Error := none }
      | some e =>
        ∃ err, (d.ToResult).Error = some err ∧
          errorsIs err (.sentinel .ErrRuntime) = true ∧
          err.Error = str "runtime error: " ++ e.Message) := by
  obtain ⟨res, err⟩ := d
  cases err with
  | none => exact ⟨rfl, rfl, rfl⟩
  | some e => exact ⟨rfl, rfl, _, rfl, rfl, rfl⟩

/-- C6: when the `select` of `pyEvalTool` takes the deadline case and the
timeout context reports `context.DeadlineExceeded`, the response is the failure
with code -1 and message "Python evaluation timed out", whatever the result
channel holds, a result or nothing yet. -/
theorem C6_deadline_branch_response (chan : Option PyEvalResult) :
    pyEvalTool .ctxDone { ctxErr := some contextDeadlineExceeded, resultChan := chan } =
      some (.response
        { Result := .mk []
          Error := some { Code := -1, Message := str "Python evaluation timed out" } }) := by
  rfl

/-- C10, the input that refutes it: for `-mem 268435456` (2^28 MiB) the page
ceiling is 0, so `pages * 64 KiB` is not `m * 1024 KiB`. -/
theorem C10_wraps_at_two_pow_28 :
    memoryLimitPages 268435456 = 0 ∧
    memoryLimitPages 268435456 * wasmPageSizeKiB ≠ 268435456 * kiBytesInMiByte := by
  decide

/-- C10, amended: for every `m` below 2^28 the page ceiling covers exactly `m`
MiB, `pages * 64 KiB = m * 1024 KiB`. -/
theorem C10_pages_cover_mem (m : Nat) (h : m < 2 ^ 28) :
    memoryLimitPages m * wasmPageSizeKiB = m * kiBytesInMiByte := by
  have h16 : wasmPagesInMiB = 16 := by decide
  simp only [memoryLimitPages, wasmPageSizeKiB, kiBytesInMiByte, h16]
  omega

/-- C10, at the default `-mem 64`: 1024 pages, 64 MiB. -/
theorem C10_pages_cover_mem_witness :
    (64 : Nat) < 2 ^ 28 ∧ memoryLimitPages 64 * wasmPageSizeKiB = 64 * kiBytesInMiByte :=
  ⟨by decide, C10_pages_cover_mem 64 (by decide)⟩

/-- An external error never matches one of the repository's sentinels. -/
theorem extError_Is_sentinel (e : ExtError) (s : Sentinel) : e.Is (.sentinel s) = false := by
  induction e with
  | deadlineExceeded => simp [ExtError.Is]
  | exitError code => simp [ExtError.Is]
  | leaf msg => rfl
  | wrap msg inner ih => simpa [ExtError.Is] using ih
  | join msg a b iha ihb => simp [ExtError.Is, iha, ihb]

/-- Trimming a run of whitespace runes from the left leaves nothing. -/
theorem trimLeftSpace_of_spaceOnly (s : Bytes) (h : SpaceOnly s) : trimLeftSpace 0 s = [] := by
  induction h with
  | nil => rfl
  | ascii c rest hc _ ih =>
    simp [trimLeftSpace, leadingSpaceLen, hc, ih]
  | two c b1 rest hc _ ih =>
    have hc2 : c = 0xC2 := by
      simp [isSpace2] at hc; exact hc.1
    have ha : isAsciiSpace c = false := by subst hc2; decide
    simp [trimLeftSpace, leadingSpaceLen, hc, ha, ih]
  | three c b1 b2 rest hc _ ih =>
    have hlead : c = 0xE1 ∨ c = 0xE2 ∨ c = 0xE3 := by
      simp only [isSpace3, Bool.or_eq_true, Bool.and_eq_true, decide_eq_true_eq] at hc
      rcases hc with ((h | h) | h) | h
      · exact Or.inl h.1.1
      · exact Or.inr (Or.inl h.1.1)
      · exact Or.inr (Or.inl h.1.1)
      · exact Or.inr (Or.inr h.1.1)
    have ha : isAsciiSpace c = false := by
      rcases hlead with h | h | h <;> subst h <;> decide
    have h2 : isSpace2 c b1 = false := by
      rcases hlead with h | h | h <;> subst h <;> simp [isSpace2]
    simp [trimLeftSpace, leadingSpaceLen, hc, ha, h2, ih]

/-- Go `bytes.TrimSpace` of a run of whitespace runes is empty. -/
theorem bytesTrimSpace_of_spaceOnly (s : Bytes) (h : SpaceOnly s) : bytesTrimSpace s = [] := by
  simp [bytesTrimSpace, trimLeftSpace_of_spaceOnly s h, trimRightSpaceRev]

/-- C1, the input that breaks it: a guest that exits 0 and prints `null`.  The
output is valid JSON and denotes `null`, not an object, yet the evaluator returns
a success, whose `Result` holds the nil map. -/
theorem C1_null_output_is_success :
    jsonValid (bytesTrimSpace (str "null\n")) = true ∧
    decodeJson (bytesTrimSpace (str "null\n")) = some Json.null ∧
    WasmRuntime.ToEvaluator (cleanRun (str "null\n")) =
      { Result := some GoMap.nilMap, Error := none } :=
  ⟨rfl, rfl, rfl⟩

/-- C7, the input that refutes it: the dto of the repository's test "error from
dto" with a non-empty map.  `ToResult` returns both the map and an error. -/
theorem C7_ToResult_sets_both :
    (PyEvalResultDto.ToResult
      { Result := .mk [(str "status", .str (str "ok"))]
        Error := some { Code := 10, Message := str "Script failed" } }).Result
      = some (.mk [(str "status", .str (str "ok"))]) ∧
    (PyEvalResultDto.ToResult
      { Result := .mk [(str "status", .str (str "ok"))]
        Error := some { Code := 10, Message := str "Script failed" } }).Error.isSome = true ∧
    (PyEvalResultDto.ToResult
      { Result := .mk [(str "status", .str (str "ok"))]
        Error := some { Code := 10, Message := str "Script failed" } }).exactlyOne = false :=
  ⟨rfl, rfl, rfl⟩

/-- A failure of the evaluator carries no `Result`, and a result of the evaluator
never has both an object and an error. -/
theorem ToEvaluator_never_both (run : EngineRun) :
    ((WasmRuntime.ToEvaluator run).Error.isSome = true →
      (WasmRuntime.ToEvaluator run).Result = none) ∧
    ((WasmRuntime.ToEvaluator run).hasResult
      && (WasmRuntime.ToEvaluator run).Error.isSome) = false := by
  unfold WasmRuntime.ToEvaluator
  repeat' (first | split | dsimp only)
  all_goals first
    | exact ⟨fun _ => rfl, rfl⟩
    | exact ⟨fun h => Bool.noConfusion h, Bool.and_false _⟩

/-- C7, amended: `ToResult` stores `d.Result` unchanged and sets `Error` exactly
when `d.Error` is not nil, so exactly one of its variants is populated exactly
when exactly one of `d.Result` and `d.Error` is not nil.  A result of the
evaluator never has both, a failure carries no `Result`, and exactly one variant
is populated on every run other than the one that ends with the guest's output
being the JSON text `null`. -/
theorem C7_exactly_one (d : PyEvalResultDto) (run : EngineRun)
    (hout : run.autoID = none → run.toJson = none → run.instantiate = none →
      run.close = none → decodeJson (bytesTrimSpace run.output) ≠ some Json.null) :
    (d.ToResult).Result = some d.Result ∧
    (d.ToResult).Error.isSome = d.Error.isSome ∧
    (d.ToResult).exactlyOne = xor (!d.Result.isNil) d.Error.isSome ∧
    ((WasmRuntime.ToEvaluator run).Error.isSome = true →
      (WasmRuntime.ToEvaluator run).Result = none) ∧
    ((WasmRuntime.ToEvaluator run).hasResult
      && (WasmRuntime.ToEvaluator run).Error.isSome) = false ∧
    (WasmRuntime.ToEvaluator run).exactlyOne = true := by
  refine ⟨rfl, ?_, ?_, (ToEvaluator_never_both run).1, (ToEvaluator_never_both run).2, ?_⟩
  · obtain ⟨res, err⟩ := d
    cases err <;> rfl
  · obtain ⟨res, err⟩ := d
    cases res <;> cases err <;> rfl
  · obtain ⟨a, t, i, c, out⟩ := run
    cases a with
    | some _ => rfl
    | none =>
    cases t with
    | some _ => rfl
    | none =>
    cases i with
    | some cause =>
      simp only [WasmRuntime.ToEvaluator, WasmRuntime.Instantiate]
      split <;> rfl
    | none =>
    cases c with
    | some cause =>
      simp only [WasmRuntime.ToEvaluator, WasmRuntime.Instantiate, WasmInstance.Close]
      split
      · rfl
      · split <;> rfl
    | none =>
      have hnull : decodeJson (bytesTrimSpace out) ≠ some Json.null := hout rfl rfl rfl rfl
      simp only [WasmRuntime.ToEvaluator, WasmRuntime.Instantiate, WasmInstance.Close]
      split
      · rfl
      · split
        · rfl
        · split
          · rfl
          · rename_i jsonObject hstore
            simp only [jsonUnmarshalMap] at hstore
            cases hdec : decodeJson (bytesTrimSpace out) with
            | none => rw [hdec] at hstore; simp at hstore
            | some v =>
              rw [hdec] at hstore
              cases v with
              | null => exact absurd hdec hnull
              | obj members =>
                simp only [storeMap] at hstore
                have hm : jsonObject = GoMap.mk members := (Prod.mk.inj hstore).1.symm
                subst hm
                rfl
              | bool b => simp [storeMap, saveError] at hstore
              | num lit => simp [storeMap, saveError] at hstore
              | str s => simp [storeMap, saveError] at hstore
              | arr items => simp [storeMap, saveError] at hstore

/-- C7, at a guest that exits 0 and prints an object, and at one exiting with
code 7: the first result holds the object and no error, the second an error and
no `Result`. -/
theorem C7_exactly_one_witness :
    (WasmRuntime.ToEvaluator (cleanRun (str "\x7b\"k\": \"v\"\x7d"))).exactlyOne = true ∧
    (WasmRuntime.ToEvaluator (cleanRun (str "\x7b\"k\": \"v\"\x7d"))).Result
      = some (.mk [(str "k", .str (str "v"))]) ∧
    (WasmRuntime.ToEvaluator
      { autoID := none, toJson := none, instantiate := none,
        close := some (.exitError 7), output := str "null" }).exactlyOne = true :=
  ⟨(C7_exactly_one PyEvalResultDto.zero (cleanRun (str "\x7b\"k\": \"v\"\x7d"))
      (fun _ _ _ _ h => Json.noConfusion (Option.some.inj
        (h : some (Json.obj [(str "k", .str (str "v"))]) = some Json.null)))).2.2.2.2.2,
    rfl,
    (C7_exactly_one PyEvalResultDto.zero
      { autoID := none, toJson := none, instantiate := none,
        close := some (.exitError 7), output := str "null" }
      (fun _ _ _ h => Option.noConfusion h)).2.2.2.2.2⟩

/-- C9: a guest that exits 0 and writes only whitespace (or nothing) gets the
failure wrapping `ErrOutputJson` whose text says "no output"; the test is made
before `json.Valid`, which would reject the empty text with another message. -/
theorem C9_whitespace_only_output (run : EngineRun) (h1 : run.autoID = none)
    (h2 : run.toJson = none) (h3 : run.instantiate = none) (h4 : run.close = none)
    (hws : SpaceOnly run.output) :
    ∃ err, WasmRuntime.ToEvaluator run = { Result := none, Error := some err } ∧
      errorsIs err (.sentinel .ErrOutputJson) = true ∧
      err.Error = str ("output error: invalid json: script produced no output, "
        ++ "but a JSON object was expected") ∧
      stringsContains err.Error (str "no output") = true ∧
      jsonValid (bytesTrimSpace run.output) = false := by
  have ht := bytesTrimSpace_of_spaceOnly run.output hws
  refine ⟨.wrapError (str ("output error: invalid json: script produced no output, "
    ++ "but a JSON object was expected")) (.sentinel .ErrOutputJson), ?_, ?_, ?_, ?_, ?_⟩
  · simp only [WasmRuntime.ToEvaluator, h1, h2, h3, h4, WasmRuntime.Instantiate,
      WasmInstance.Close, ht, List.length_nil, if_true]
    rfl
  · rfl
  · rfl
  · rfl
  · rw [ht]; rfl

/-- C9, at the output " \t\n" followed by a no-break space. -/
theorem C9_whitespace_only_output_witness :
    ∃ err, WasmRuntime.ToEvaluator (cleanRun [0x20, 0x09, 0x0A, 0xC2, 0xA0])
        = { Result := none, Error := some err } ∧
      errorsIs err (.sentinel .ErrOutputJson) = true ∧
      err.Error = str ("output error: invalid json: script produced no output, "
        ++ "but a JSON object was expected") ∧
      stringsContains err.Error (str "no output") = true ∧
      jsonValid (bytesTrimSpace (cleanRun [0x20, 0x09, 0x0A, 0xC2, 0xA0]).output) = false :=
  C9_whitespace_only_output (cleanRun [0x20, 0x09, 0x0A, 0xC2, 0xA0]) rfl rfl rfl rfl
    (.ascii _ _ (by decide) (.ascii _ _ (by decide) (.ascii _ _ (by decide)
      (.two _ _ _ (by decide) .nil))))

/-- A text none of whose bytes is the first byte of `sub` does not contain
`sub`. -/
theorem stringsContains_of_head_not_mem (s : Bytes) (c : UInt8) (t : Bytes)
    (h : ∀ x ∈ s, x ≠ c) : stringsContains s (c :: t) = false := by
  induction s with
  | nil => rfl
  | cons x rest ih =>
    have hx : c ≠ x := fun hcx => h x (List.mem_cons_self x rest) hcx.symm
    have hrest : ∀ y ∈ rest, y ≠ c := fun y hy => h y (List.mem_cons_of_mem x hy)
    simp [stringsContains, List.isPrefixOf, hx, ih hrest]

/-- A decimal digit is not the letter `d`. -/
theorem digitChar_ne_d (k : Nat) (hk : k < 10) : UInt8.ofNat (Nat.digitChar k).toNat ≠ 100 := by
  interval_cases k <;> decide

/-- The digits `Nat.toDigitsCore` adds are decimal digits. -/
theorem toDigitsCore_ne_d (fuel : Nat) : ∀ (n : Nat) (ds : List Char),
    (∀ c ∈ ds, UInt8.ofNat c.toNat ≠ 100) →
    ∀ c ∈ Nat.toDigitsCore 10 fuel n ds, UInt8.ofNat c.toNat ≠ 100 := by
  induction fuel with
  | zero => intro n ds h; simpa [Nat.toDigitsCore] using h
  | succ f ih =>
    intro n ds h
    have hd : ∀ c ∈ Nat.digitChar (n % 10) :: ds, UInt8.ofNat c.toNat ≠ 100 := by
      intro c hc
      rcases List.mem_cons.mp hc with rfl | hc
      · exact digitChar_ne_d _ (Nat.mod_lt _ (by decide))
      · exact h c hc
    simp only [Nat.toDigitsCore]
    split
    · exact hd
    · exact ih _ _ hd

/-- The decimal form of a number does not contain "deadline exceeded". -/
theorem decimal_no_deadlineText (n : Nat) : stringsContains (decimal n) deadlineText = false := by
  apply stringsContains_of_head_not_mem (decimal n) 100 (str "eadline exceeded")
  intro x hx
  simp only [decimal, List.mem_map] at hx
  obtain ⟨c, hc, rfl⟩ := hx
  exact toDigitsCore_ne_d _ _ _ (by simp) c hc

/-- The text of an execution-exit failure does not contain "deadline
exceeded". -/
theorem exitText_no_deadlineText (n : Nat) :
    stringsContains
      (Sentinel.ErrPythonExecution.Error ++ str ": script exited with code " ++ decimal n)
      deadlineText = false :=
  (rfl : stringsContains
      (Sentinel.ErrPythonExecution.Error ++ str ": script exited with code " ++ decimal n)
      deadlineText = stringsContains (decimal n) deadlineText).trans (decimal_no_deadlineText n)

/-- The text of an instantiation failure contains "deadline exceeded" exactly
when the text of its cause does. -/
theorem instantiateText_deadlineText (t : Bytes) :
    stringsContains
      (Sentinel.ErrInstantiate.Error ++ str ": " ++ (str "failed to instantiate module: " ++ t))
      deadlineText = stringsContains t deadlineText :=
  rfl

/-- The client message of a `fmt.Errorf` failure wrapping `ErrOutputJson` or
`ErrPythonExecution` alone is its text, unless the text contains "deadline
exceeded". -/
theorem toClientError_wrapError (msg : Bytes) (s : Sentinel)
    (hs : s = .ErrOutputJson ∨ s = .ErrPythonExecution)
    (h : stringsContains msg deadlineText = false) :
    toClientError (some (.wrapError msg (.sentinel s))) = msg := by
  have h' : stringsContains msg (str "deadline exceeded") = false := h
  rcases hs with rfl | rfl <;> simp [toClientError, errorsIs, GoError.Error, h']

/-- C2: when closing the instance returns the error `closeErr`, no `Result` is
returned and the error is, in this order: `context.DeadlineExceeded` if
`closeErr` matches it (whether or not it also carries an exit code); else, if
`closeErr` carries a `*sys.ExitError` with code `n`, an error wrapping
`ErrPythonExecution` that reads "python execution error: script exited with code
n"; else the error "error closing wasm module: ..." wrapping `closeErr`, which
matches neither `ErrPythonExecution` nor `ErrOutputJson`. -/
theorem C2_close_error_classification (run : EngineRun) (closeErr : GoError)
    (h1 : run.autoID = none) (h2 : run.toJson = none) (h3 : run.instantiate = none)
    (h4 : WasmInstance.Close run.close = some closeErr) :
    (WasmRuntime.ToEvaluator run).Result = none ∧
    (errorsIs closeErr .deadlineExceeded = true →
      (WasmRuntime.ToEvaluator run).Error = some contextDeadlineExceeded) ∧
    (errorsIs closeErr .deadlineExceeded = false →
      ∀ n, errorsAsExitError closeErr = some n →
        ∃ err, (WasmRuntime.ToEvaluator run).Error = some err ∧
          errorsIs err (.sentinel .ErrPythonExecution) = true ∧
          err.Error = str "python execution error: script exited with code " ++ decimal n) ∧
    (errorsIs closeErr .deadlineExceeded = false →
      errorsAsExitError closeErr = none →
        ∃ err, (WasmRuntime.ToEvaluator run).Error = some err ∧
          err = .wrapError (str "error closing wasm module: " ++ closeErr.Error) closeErr ∧
          errorsIs err (.sentinel .ErrPythonExecution) = false ∧
          errorsIs err (.sentinel .ErrOutputJson) = false) := by
  have hsent : ∀ s, errorsIs closeErr (.sentinel s) = false := by
    intro s
    cases hc : run.close with
    | none => rw [hc] at h4; exact absurd h4 (by simp [WasmInstance.Close])
    | some cause =>
      rw [hc] at h4
      simp only [WasmInstance.Close, Option.some.injEq] at h4
      subst h4
      exact extError_Is_sentinel cause s
  have hev : WasmRuntime.ToEvaluator run =
      if errorsIs closeErr .deadlineExceeded then
        { Result := none, Error := some contextDeadlineExceeded }
      else
        match errorsAsExitError closeErr with
        | some exitCode =>
          { Result := none
            Error := some (.wrapError
              (Sentinel.ErrPythonExecution.Error ++ str ": script exited with code "
                ++ decimal exitCode)
              (.sentinel .ErrPythonExecution)) }
        | none =>
          { Result := none
            Error := some (.wrapError (str "error closing wasm module: " ++ closeErr.Error)
              closeErr) } := by
    simp only [WasmRuntime.ToEvaluator, h1, h2, h3, h4, WasmRuntime.Instantiate]
  refine ⟨?_, ?_, ?_, ?_⟩
  · rw [hev]; split
    · rfl
    · split <;> rfl
  · intro hd; rw [hev, if_pos hd]
  · intro hd n hn
    rw [hev, if_neg (by simp [hd]), hn]
    exact ⟨_, rfl, rfl, rfl⟩
  · intro hd hn
    rw [hev, if_neg (by simp [hd]), hn]
    exact ⟨_, rfl, rfl, hsent _, hsent _⟩

/-- C2, at a guest exiting with code 7 (the text reads "... code 7") and at a
close error that is a `*sys.ExitError` with the deadline exit code (it carries
an exit code and matches the deadline: the result is the timeout). -/
theorem C2_close_error_classification_witness :
    (∃ err, (WasmRuntime.ToEvaluator
        { autoID := none, toJson := none, instantiate := none,
          close := some (.exitError 7), output := [] }).Error = some err ∧
      errorsIs err (.sentinel .ErrPythonExecution) = true ∧
      err.Error = str "python execution error: script exited with code " ++ decimal 7) ∧
    stringsContains (str "python execution error: script exited with code " ++ decimal 7)
      (str "7") = true ∧
    (WasmRuntime.ToEvaluator
        { autoID := none, toJson := none, instantiate := none,
          close := some (.exitError ExitCodeDeadlineExceeded), output := [] }).Error
      = some contextDeadlineExceeded ∧
    errorsAsExitError (.wrapError
      (str "failed to close module: " ++ (ExtError.exitError ExitCodeDeadlineExceeded).Error)
      (.ext (.exitError ExitCodeDeadlineExceeded))) = some ExitCodeDeadlineExceeded :=
  ⟨(C2_close_error_classification
      { autoID := none, toJson := none, instantiate := none,
        close := some (.exitError 7), output := [] } _ rfl rfl rfl rfl).2.2.1 rfl 7 rfl,
    rfl,
    (C2_close_error_classification
      { autoID := none, toJson := none, instantiate := none,
        close := some (.exitError ExitCodeDeadlineExceeded), output := [] }
      _ rfl rfl rfl rfl).2.1 rfl,
    rfl⟩

/-- C3, the input that refutes it: a guest that exits 0 and prints the words
"deadline exceeded".  The evaluator returns an output-format failure echoing
them, and `toClientError` answers "Python evaluation timed out", not the text of
the error. -/
theorem C3_output_naming_a_deadline :
    ∃ err, (WasmRuntime.ToEvaluator (cleanRun (str "deadline exceeded"))).Error = some err ∧
      errorsIs err (.sentinel .ErrOutputJson) = true ∧
      err.Error = str ("output error: invalid json: script output was not valid JSON. "
        ++ "Raw output: deadline exceeded") ∧
      toClientError (some err) = str "Python evaluation timed out" ∧
      toClientError (some err) ≠ err.Error :=
  ⟨_, rfl, rfl, rfl, rfl, by decide⟩

/-- C3, amended: for every output-format or execution-exit failure the evaluator
returns, `toClientError` returns its text verbatim, provided the text does not
contain "deadline exceeded", which is always so for an execution-exit
failure. -/
theorem C3_verbatim_message (run : EngineRun) (err : GoError)
    (hres : (WasmRuntime.ToEvaluator run).Error = some err)
    (hkind : errorsIs err (.sentinel .ErrOutputJson) = true ∨
      errorsIs err (.sentinel .ErrPythonExecution) = true)
    (htext : errorsIs err (.sentinel .ErrPythonExecution) = true ∨
      stringsContains err.Error deadlineText = false) :
    toClientError (some err) = err.Error := by
  have hOut : ∀ msg, err = .wrapError msg (.sentinel .ErrOutputJson) →
      toClientError (some err) = err.Error := by
    intro msg he
    subst he
    rcases htext with h | h
    · simp [errorsIs] at h
    · exact toClientError_wrapError msg _ (Or.inl rfl) h
  obtain ⟨a, t, i, c, out⟩ := run
  cases a with
  | some _ =>
    simp only [WasmRuntime.ToEvaluator, Option.some.injEq] at hres
    subst hres
    simp [errorsIs] at hkind
  | none =>
  cases t with
  | some _ =>
    simp only [WasmRuntime.ToEvaluator, Option.some.injEq] at hres
    subst hres
    simp [errorsIs] at hkind
  | none =>
  cases i with
  | some cause =>
    simp only [WasmRuntime.ToEvaluator, WasmRuntime.Instantiate] at hres
    split at hres
    all_goals (simp only [Option.some.injEq] at hres; subst hres)
    all_goals simp [errorsIs, contextDeadlineExceeded, extError_Is_sentinel] at hkind
  | none =>
  cases c with
  | some cause =>
    simp only [WasmRuntime.ToEvaluator, WasmRuntime.Instantiate, WasmInstance.Close] at hres
    split at hres
    · simp only [Option.some.injEq] at hres; subst hres
      simp [errorsIs, contextDeadlineExceeded, extError_Is_sentinel] at hkind
    · split at hres
      · simp only [Option.some.injEq] at hres; subst hres
        exact toClientError_wrapError _ _ (Or.inr rfl) (exitText_no_deadlineText _)
      · simp only [Option.some.injEq] at hres; subst hres
        simp [errorsIs, extError_Is_sentinel] at hkind
  | none =>
    simp only [WasmRuntime.ToEvaluator, WasmRuntime.Instantiate, WasmInstance.Close] at hres
    split at hres
    · exact hOut _ (Option.some.inj hres).symm
    · split at hres
      · exact hOut _ (Option.some.inj hres).symm
      · split at hres
        · exact hOut _ (Option.some.inj hres).symm
        · simp at hres

/-- C3, at a guest that exits 0 and prints `oops`: the client reads the full
text of the output-format failure, raw output included. -/
theorem C3_verbatim_message_witness :
    toClientError (WasmRuntime.ToEvaluator (cleanRun (str "oops"))).Error =
      str "output error: invalid json: script output was not valid JSON. Raw output: oops" :=
  C3_verbatim_message (cleanRun (str "oops"))
    (.wrapError
      (str "output error: invalid json: script output was not valid JSON. Raw output: oops")
      (.sentinel .ErrOutputJson))
    rfl (Or.inl rfl) (Or.inr rfl)

/-- C8: on the identifier failure path, the instantiation failure path and the
deadline paths the client message is one of the three fixed texts.  For an
instantiation failure it is chosen by two tests on the cause (does it match the
deadline, does its text contain "deadline exceeded") and is never built from the
cause's text. -/
theorem C8_fixed_client_messages (run : EngineRun)
    (hpath : run.autoID.isSome = true ∨
      (run.autoID = none ∧ run.toJson = none ∧ run.instantiate.isSome = true) ∨
      (WasmRuntime.ToEvaluator run).Error = some contextDeadlineExceeded) :
    toClientError (WasmRuntime.ToEvaluator run).Error ∈ fixedMessages ∧
    (∀ cause, run.autoID = none → run.toJson = none → run.instantiate = some cause →
      toClientError (WasmRuntime.ToEvaluator run).Error =
        if cause.Is .deadlineExceeded || stringsContains cause.Error deadlineText then
          str "Python evaluation timed out"
        else str "Engine instantiation failed") := by
  have hinst : ∀ cause, run.autoID = none → run.toJson = none → run.instantiate = some cause →
      toClientError (WasmRuntime.ToEvaluator run).Error =
        if cause.Is .deadlineExceeded || stringsContains cause.Error deadlineText then
          str "Python evaluation timed out"
        else str "Engine instantiation failed" := by
    intro cause h1 h2 h3
    simp only [WasmRuntime.ToEvaluator, h1, h2, h3, WasmRuntime.Instantiate, errorsIs]
    by_cases hd : cause.Is .deadlineExceeded = true
    · rw [if_pos hd]
      simp only [hd, Bool.true_or, if_true]
      rfl
    · rw [if_neg hd]
      have hd' : cause.Is .deadlineExceeded = false := by simpa using hd
      have htxt : stringsContains
          (Sentinel.ErrInstantiate.Error ++ str ": "
            ++ (str "failed to instantiate module: " ++ cause.Error))
          (str "deadline exceeded") = stringsContains cause.Error deadlineText :=
        instantiateText_deadlineText cause.Error
      cases hc : stringsContains cause.Error deadlineText with
      | true =>
        rw [hc, List.append_assoc] at htxt
        simp [toClientError, errorsIs, GoError.Error, hd', htxt]
      | false =>
        rw [hc, List.append_assoc] at htxt
        simp [toClientError, errorsIs, GoError.Error, hd', htxt, extError_Is_sentinel]
  refine ⟨?_, hinst⟩
  rcases hpath with h | ⟨h1, h2, h3⟩ | h
  · cases ha : run.autoID with
    | none => simp [ha] at h
    | some e =>
      simp only [WasmRuntime.ToEvaluator, ha]
      simp [toClientError, errorsIs, fixedMessages, GoError.Error]
      decide
  · cases hi : run.instantiate with
    | none => simp [hi] at h3
    | some cause =>
      rw [hinst cause h1 h2 hi]
      split <;> simp [fixedMessages]
  · rw [h]
    simp [fixedMessages]
    right; right; rfl

/-- C8, at two instantiation failures whose causes differ only in their text:
both give "Engine instantiation failed", which contains neither text. -/
theorem C8_fixed_client_messages_witness :
    toClientError (WasmRuntime.ToEvaluator
      { autoID := none, toJson := none, close := none, output := []
        instantiate := some (.leaf (str "open /srv/python.wasm: permission denied")) }).Error
      = str "Engine instantiation failed" ∧
    toClientError (WasmRuntime.ToEvaluator
      { autoID := none, toJson := none, close := none, output := []
        instantiate := some (.leaf (str "memory limit of 1024 pages reached")) }).Error
      = str "Engine instantiation failed" ∧
    stringsContains (str "Engine instantiation failed")
      (str "open /srv/python.wasm: permission denied") = false ∧
    stringsContains (str "Engine instantiation failed")
      (str "memory limit of 1024 pages reached") = false :=
  ⟨(C8_fixed_client_messages
      { autoID := none, toJson := none, close := none, output := []
        instantiate := some (.leaf (str "open /srv/python.wasm: permission denied")) }
      (Or.inr (Or.inl ⟨rfl, rfl, rfl⟩))).2 _ rfl rfl rfl,
    (C8_fixed_client_messages
      { autoID := none, toJson := none, close := none, output := []
        instantiate := some (.leaf (str "memory limit of 1024 pages reached")) }
      (Or.inr (Or.inl ⟨rfl, rfl, rfl⟩))).2 _ rfl rfl rfl,
    rfl, rfl⟩

/-- Once an error is saved it stays: `saveError` never clears it. -/
theorem saveError_isSome (saved : Option JsonError) (e : JsonError) :
    (saveError saved e).isSome = true := by
  cases saved <;> rfl

/-- Storing into the map keeps a saved error. -/
theorem storeMap_keeps (cur : GoMap) (saved : Option JsonError) (v : Json)
    (h : saved.isSome = true) : (storeMap cur saved v).2.isSome = true := by
  cases v <;> simp only [storeMap] <;> first
    | exact h
    | exact saveError_isSome _ _
    | (split <;> first | exact h | exact saveError_isSome _ _)

/-- Storing a value that is neither an object nor `null` into the map records a
type error. -/
theorem storeMap_rejects (cur : GoMap) (saved : Option JsonError) (v : Json)
    (ho : v.isObject = false) (hn : v.isNull = false) :
    (storeMap cur saved v).2.isSome = true := by
  cases v with
  | null => simp [Json.isNull] at hn
  | obj members => simp [Json.isObject] at ho
  | bool b => exact saveError_isSome _ _
  | num lit => exact saveError_isSome _ _
  | str s => exact saveError_isSome _ _
  | arr items => exact saveError_isSome _ _

/-- Storing one member into an `ErrorDto` keeps a saved error. -/
theorem errorDto_storeMember_keeps (e : ErrorDto) (saved : Option JsonError) (key : Bytes)
    (v : Json) (h : saved.isSome = true) : (e.storeMember saved key v).2.isSome = true := by
  unfold ErrorDto.storeMember
  repeat' split
  all_goals first
    | exact h
    | exact saveError_isSome _ _

/-- Storing the members of an object into an `ErrorDto` keeps a saved error. -/
theorem errorDto_storeMembers_keeps (members : List (Bytes × Json)) :
    ∀ (e : ErrorDto) (saved : Option JsonError), saved.isSome = true →
      (ErrorDto.storeMembers members (e, saved)).2.isSome = true := by
  induction members with
  | nil => intro e saved h; exact h
  | cons m rest ih =>
    intro e saved h
    obtain ⟨k, v⟩ := m
    simp only [ErrorDto.storeMembers]
    exact ih _ _ (errorDto_storeMember_keeps e saved k v h)

/-- Storing into the field `Error` keeps a saved error. -/
theorem storeErrorDto_keeps (cur : Option ErrorDto) (saved : Option JsonError) (v : Json)
    (h : saved.isSome = true) : (storeErrorDto cur saved v).2.isSome = true := by
  cases v <;> simp only [storeErrorDto] <;> first
    | exact h
    | exact saveError_isSome _ _
    | exact errorDto_storeMembers_keeps _ _ _ h

/-- Storing one member into a `PyEvalResultDto` keeps a saved error. -/
theorem resultDto_storeMember_keeps (d : PyEvalResultDto) (saved : Option JsonError)
    (key : Bytes) (v : Json) (h : saved.isSome = true) :
    (d.storeMember saved key v).2.isSome = true := by
  unfold PyEvalResultDto.storeMember
  split
  · exact storeMap_keeps _ _ _ h
  · exact storeErrorDto_keeps _ _ _ h
  · exact h

/-- Storing the members of an object into a `PyEvalResultDto` keeps a saved
error. -/
theorem resultDto_storeMembers_keeps (members : List (Bytes × Json)) :
    ∀ (d : PyEvalResultDto) (saved : Option JsonError), saved.isSome = true →
      (PyEvalResultDto.storeMembers members (d, saved)).2.isSome = true := by
  induction members with
  | nil => intro d saved h; exact h
  | cons m rest ih =>
    intro d saved h
    obtain ⟨k, v⟩ := m
    simp only [PyEvalResultDto.storeMembers]
    exact ih _ _ (resultDto_storeMember_keeps d saved k v h)

/-- A member `result` whose value is neither an object nor `null` makes the
decoding of the members end with an error, wherever it stands among them. -/
theorem resultDto_storeMembers_rejects (members : List (Bytes × Json)) (v : Json)
    (ho : v.isObject = false) (hn : v.isNull = false) :
    ∀ (d : PyEvalResultDto) (saved : Option JsonError), (str "result", v) ∈ members →
      (PyEvalResultDto.storeMembers members (d, saved)).2.isSome = true := by
  induction members with
  | nil => intro d saved hm; simp at hm
  | cons m rest ih =>
    intro d saved hm
    obtain ⟨k, w⟩ := m
    simp only [PyEvalResultDto.storeMembers]
    rcases List.mem_cons.mp hm with heq | hrest
    · apply resultDto_storeMembers_keeps
      have hk : k = str "result" := (Prod.mk.inj heq).1.symm
      have hw : w = v := (Prod.mk.inj heq).2.symm
      subst hk hw
      have hl : lookupField [str "result", str "error"] (str "result") = some 0 := by decide
      simp only [PyEvalResultDto.storeMember, hl]
      exact storeMap_rejects _ _ _ ho hn
    · exact ih _ _ hrest

/-- C4, the input that refutes it: the text of the repository's test "valid
error", an object whose `result` is `null`.  It decodes without an error. -/
theorem C4_null_result_is_accepted :
    decodeJson (str ("\x7b\"result\": null, "
        ++ "\"error\": \x7b\"code\": 1, \"message\": \"Python error\"\x7d\x7d")) =
      some (.obj [(str "result", .null),
        (str "error", .obj [(str "code", .num (str "1")),
          (str "message", .str (str "Python error"))])]) ∧
    (PyEvalResultDtoFromJson (str ("\x7b\"result\": null, "
        ++ "\"error\": \x7b\"code\": 1, \"message\": \"Python error\"\x7d\x7d"))).2.isNone
      = true :=
  ⟨rfl, rfl⟩

/-- C4, amended: decoding returns an error when the text is not well-formed
JSON, and when it is a JSON object with a member `result` whose value is a
number, a string, a boolean or an array. -/
theorem C4_decoding_fails (j : Bytes)
    (h : jsonValid j = false ∨
      ∃ members v, decodeJson j = some (.obj members) ∧ (str "result", v) ∈ members ∧
        v.isObject = false ∧ v.isNull = false) :
    (PyEvalResultDtoFromJson j).2.isSome = true := by
  rcases h with h | ⟨members, v, hdec, hmem, ho, hn⟩
  · have hd : decodeJson j = none := by
      have hc : checkValid j = false := h
      simp [decodeJson, hc]
    simp [PyEvalResultDtoFromJson, hd]
  · simp only [PyEvalResultDtoFromJson, hdec]
    exact resultDto_storeMembers_rejects members v ho hn _ _ hmem

/-- C4, at the two failing texts of the repository's test: `invalid json`, and
the object whose `result` is 42. -/
theorem C4_decoding_fails_witness :
    (PyEvalResultDtoFromJson (str "invalid json")).2.isSome = true ∧
    (PyEvalResultDtoFromJson (str "\x7b\"result\": 42, \"error\": null\x7d")).2.isSome = true :=
  ⟨C4_decoding_fails (str "invalid json") (Or.inl rfl),
    C4_decoding_fails (str "\x7b\"result\": 42, \"error\": null\x7d")
      (Or.inr ⟨[(str "result", .num (str "42")), (str "error", .null)], .num (str "42"),
        rfl, List.mem_cons_self _ _, rfl, rfl⟩)⟩

/-- The empty text is not valid JSON. -/
theorem checkValid_nil : checkValid [] = false := rfl

/-- Output that is valid JSON and denotes a number, a string, a boolean or an
array is rejected with the failure "valid JSON but not an object", which wraps
`ErrOutputJson` and echoes the trimmed output. -/
theorem ToEvaluator_rejects_scalars_and_arrays (out : Bytes) (v : Json)
    (hv : decodeJson (bytesTrimSpace out) = some v)
    (ho : v.isObject = false) (hn : v.isNull = false) :
    WasmRuntime.ToEvaluator (cleanRun out) =
      { Result := none
        Error := some (.wrapError
          (Sentinel.ErrOutputJson.Error
            ++ str ": script output was valid JSON but not an object (map[string]any). Raw output: "
            ++ bytesTrimSpace out)
          (.sentinel .ErrOutputJson)) } := by
  have hvalid : checkValid (bytesTrimSpace out) = true := by
    by_contra hc
    have hc' : checkValid (bytesTrimSpace out) = false := by simpa using hc
    simp [decodeJson, hc'] at hv
  have hne : (bytesTrimSpace out).length ≠ 0 := by
    intro hlen
    have hnil : bytesTrimSpace out = [] := List.length_eq_zero.mp hlen
    rw [hnil, checkValid_nil] at hvalid
    exact Bool.noConfusion hvalid
  have hstore : jsonUnmarshalMap (bytesTrimSpace out) = (.nilMap, some .UnmarshalTypeError) := by
    simp only [jsonUnmarshalMap, hv]
    cases v with
    | null => simp [Json.isNull] at hn
    | obj members => simp [Json.isObject] at ho
    | bool b => rfl
    | num lit => rfl
    | str s => rfl
    | arr items => rfl
  simp only [WasmRuntime.ToEvaluator, cleanRun, WasmRuntime.Instantiate, WasmInstance.Close,
    if_neg hne, jsonValid, hvalid, hstore]
  rfl

/-- The constant `float64Limit` is `2^1024 - 2^970`. -/
theorem float64Limit_eq : float64Limit = 2 ^ 1024 - 2 ^ 970 := by
  norm_num [float64Limit]

/-- The case "valid result" of `TestPyEvalResultDtoFromJson`: the object is
decoded into a map with the entry `key`, the error pointer stays nil and no
error is returned. -/
theorem FromJson_valid_result :
    (PyEvalResultDtoFromJson
      (str "\x7b\"result\": \x7b\"key\": \"value\"\x7d, \"error\": null\x7d")).1 =
      { Result := .mk [(str "key", .str (str "value"))], Error := none } ∧
    (PyEvalResultDtoFromJson
      (str "\x7b\"result\": \x7b\"key\": \"value\"\x7d, \"error\": null\x7d")).2.isNone = true :=
  ⟨rfl, rfl⟩

/-- The case "valid error" of `TestPyEvalResultDtoFromJson`: the map stays nil
and the `ErrorDto` holds code 1 and the message. -/
theorem FromJson_valid_error :
    (PyEvalResultDtoFromJson (str ("\x7b\"result\": null, "
        ++ "\"error\": \x7b\"code\": 1, \"message\": \"Python error\"\x7d\x7d"))).1 =
      { Result := .nilMap, Error := some { Code := 1, Message := str "Python error" } } :=
  rfl

end PyEval
